import Mathlib

/-!
Verification of the `cfattributesprocessor` component of the
SpringerPE/opentelemetry-collector-contrib repository.

The development shallowly embeds the Go sources:

* `processor/cfattributesprocessor/internal/cf/cf.go` — the cache-aside
  Cloud Foundry client (`Client.getApp` / `getSpace` / `getOrg` and the
  derived `GetApp*` / `GetSpace*` / `GetOrg*` accessors);
* the processor itself (`processor.go`): `getAppID`, `getSpaceID`,
  `processAppID`, `processSpaceID`, `addSpaceMetadata`, `addOrgMetadata`,
  `processResource`, `processMetrics`, `processLogs`, `processTraces`;
* `config.go` (`Config`, `Config.Validate`, `fieldError`) and
  `factory.go` (`createDefaultConfig`), together with `cf.New`'s defaults.

Modelling conventions:

* `pcommon.Map` (an OpenTelemetry attribute map: a keyed collection whose
  `Get` returns the value bound to a key and whose `PutStr` upserts) is
  modelled extensionally as `AttrMap := String → Option PVal`; `PutStr`
  becomes a pointwise functional update.  Everything the embedded code
  observes about a `pcommon.Map` goes through `Get`, which this model
  captures exactly.
* `pcommon.Value` is modelled by `PVal`; only the string case is read by
  the code (`val.Type() == pcommon.ValueTypeStr`), every other Go value
  type is collapsed into the `PVal.int` constructor, which suffices to
  witness the non-string branches.
* Go errors are modelled as `Option String` (or `Except String α` for
  fallible results); `fmt.Errorf` wrapping becomes string concatenation.
* The remote Cloud Foundry API, the bigcache instance and gob
  encoding/decoding are external effects; they enter the model as oracle
  fields of the client structures (a function per operation).  The
  Go `for … range` loops over metadata maps become `List.foldl` over
  association lists.
* `time.Duration` is a count of nanoseconds, modelled as `Nat`.
-/

/-- Model of `pcommon.Value`: the string case plus a representative
non-string case (`int`). -/
inductive PVal where
  | str : String → PVal
  | int : Int → PVal
deriving DecidableEq, Repr

/-- Returns `true` exactly when the value has `pcommon.ValueTypeStr`. -/
def PVal.isStr : PVal → Bool
  | .str _ => true
  | _ => false

instance {e a : Type} [DecidableEq e] [DecidableEq a] : DecidableEq (Except e a) := fun x y =>
  match x, y with
  | .ok v, .ok w =>
    if h : v = w then isTrue (by rw [h]) else isFalse (fun hh => h (Except.ok.inj hh))
  | .error v, .error w =>
    if h : v = w then isTrue (by rw [h]) else isFalse (fun hh => h (Except.error.inj hh))
  | .ok _, .error _ => isFalse (fun hh => Except.noConfusion hh)
  | .error _, .ok _ => isFalse (fun hh => Except.noConfusion hh)

/-- Extensional model of `pcommon.Map`. -/
def AttrMap : Type := String → Option PVal

/-- Embeds `resource.Attributes().PutStr(k, v)` — upsert of a string value. -/
def AttrMap.putStr (m : AttrMap) (k v : String) : AttrMap :=
  fun j => if j = k then some (PVal.str v) else m j

/-- Embeds `cfresource.App`, restricted to the fields the embedded code reads. -/
structure CfApp where
  name : String
  labels : List (String × String)
  annotations : List (String × String)
  state : String
  lifecycleType : String
  buildpacks : List String
  stack : String
  createdAt : String
  updatedAt : String
  spaceGUID : String
deriving DecidableEq, Repr

/-- Embeds `cfresource.Space`, restricted to the fields the embedded code reads. -/
structure CfSpace where
  name : String
  labels : List (String × String)
  annotations : List (String × String)
  orgGUID : String
deriving DecidableEq, Repr

/-- Embeds `cfresource.Organization`, restricted to the fields the code reads. -/
structure CfOrg where
  name : String
  labels : List (String × String)
  annotations : List (String × String)
deriving DecidableEq, Repr

/-! Section: The cache-aside client (`internal/cf/cf.go`)

`cf.Client` holds a bigcache instance, the CF API client, and gob
(de)serialization.  All four are external effects, modelled as oracles:

* `cacheGet key` — `cache.Get(key)`: `none` is the miss (error) branch;
* `cacheSet key data` — `cache.Set(key, data)`: returns the error the Go
  code discards;
* `applicationsGet` / `spacesGet` / `organizationsGet` — the
  `cf.Applications.Get` / `cf.Spaces.Get` / `cf.Organizations.Get` API
  calls;
* `serialize…` / `deserialize…` — `gob` encoding, one oracle per object
  kind because the embedding is typed where `interface{}` is not.
-/

/-- The effectful dependencies of `cf.Client`. -/
structure Client where
  cacheGet : String → Option (List UInt8)
  cacheSet : String → List UInt8 → Option String
  applicationsGet : String → Except String CfApp
  spacesGet : String → Except String CfSpace
  organizationsGet : String → Except String CfOrg
  serializeApp : CfApp → Except String (List UInt8)
  deserializeApp : List UInt8 → Except String CfApp
  serializeSpace : CfSpace → Except String (List UInt8)
  deserializeSpace : List UInt8 → Except String CfSpace
  serializeOrg : CfOrg → Except String (List UInt8)
  deserializeOrg : List UInt8 → Except String CfOrg

/-- Embeds `cf.Client.getApp` (cf.go lines 156–180): cache-aside resolution of an
application.  On a cache miss the object is fetched, serialized (a
serialization failure is returned as an error), and stored in the cache
with the `Set` error discarded. -/
def Client.getApp (c : Client) (appID : String) : Except String CfApp :=
  let objCacheName := "app:" ++ appID
  match c.cacheGet objCacheName with
  | none =>
    match c.applicationsGet appID with
    | .error e =>
      .error ("could not retrieve App with guid " ++ objCacheName ++
        " from Cloud Foundry API: " ++ e)
    | .ok app =>
      match c.serializeApp app with
      | .error e =>
        .error ("could not encode App " ++ objCacheName ++
          " object to store in cache: " ++ e)
      | .ok data =>
        let _ := c.cacheSet objCacheName data
        .ok app
  | some value =>
    match c.deserializeApp value with
    | .error e =>
      .error ("could not decode App " ++ objCacheName ++
        " object stored in cache: " ++ e)
    | .ok a => .ok a

/-- Embeds `cf.Client.getSpace` (cf.go lines 230–254). -/
def Client.getSpace (c : Client) (spaceID : String) : Except String CfSpace :=
  let objCacheName := "space:" ++ spaceID
  match c.cacheGet objCacheName with
  | none =>
    match c.spacesGet spaceID with
    | .error e =>
      .error ("could not retrieve Space with guid " ++ objCacheName ++
        " from Cloud Foundry API: " ++ e)
    | .ok space =>
      match c.serializeSpace space with
      | .error e =>
        .error ("could not encode Space " ++ objCacheName ++
          " object to store in cache: " ++ e)
      | .ok data =>
        let _ := c.cacheSet objCacheName data
        .ok space
  | some value =>
    match c.deserializeSpace value with
    | .error e =>
      .error ("could not decode Space " ++ objCacheName ++
        " object stored in cache: " ++ e)
    | .ok s => .ok s

/-- Embeds `cf.Client.getOrg` (cf.go lines 280–304). -/
def Client.getOrg (c : Client) (orgID : String) : Except String CfOrg :=
  let objCacheName := "org:" ++ orgID
  match c.cacheGet objCacheName with
  | none =>
    match c.organizationsGet orgID with
    | .error e =>
      .error ("could not retrieve Org with guid " ++ objCacheName ++
        " from Cloud Foundry API: " ++ e)
    | .ok org =>
      match c.serializeOrg org with
      | .error e =>
        .error ("could not encode Org " ++ objCacheName ++
          " object to store in cache: " ++ e)
      | .ok data =>
        let _ := c.cacheSet objCacheName data
        .ok org
  | some value =>
    match c.deserializeOrg value with
    | .error e =>
      .error ("could not decode Org " ++ objCacheName ++
        " object stored in cache: " ++ e)
    | .ok o => .ok o

/-! Section: The processor's view of the client

The processor only calls the derived accessors (`GetAppName`,
`GetAppMetadata`, …), each of which resolves the underlying object and
projects a field (cf.go lines 182–320).  For the processor-level claims the
object resolution itself is abstracted into one oracle per kind; the
accessors below mirror the projections of cf.go exactly. -/

/-- Object resolution as the processor observes it: `getApp`, `getSpace`
and `getOrg` of `cf.Client`, abstracted as oracles. -/
structure CfClient where
  getApp : String → Except String CfApp
  getSpace : String → Except String CfSpace
  getOrg : String → Except String CfOrg

/-- Embeds `GetAppName` (cf.go lines 190–196). -/
def CfClient.GetAppName (c : CfClient) (appID : String) : Except String String :=
  match c.getApp appID with
  | .error e => .error e
  | .ok app => .ok app.name

/-- Embeds `GetAppMetadata` (cf.go lines 182–188). -/
def CfClient.GetAppMetadata (c : CfClient) (appID : String) :
    Except String (List (String × String) × List (String × String)) :=
  match c.getApp appID with
  | .error e => .error e
  | .ok app => .ok (app.labels, app.annotations)

/-- Embeds `GetAppSpace` (cf.go lines 198–204). -/
def CfClient.GetAppSpace (c : CfClient) (appID : String) : Except String String :=
  match c.getApp appID with
  | .error e => .error e
  | .ok app => .ok app.spaceGUID

/-- Embeds `GetAppState` (cf.go lines 206–212). -/
def CfClient.GetAppState (c : CfClient) (appID : String) : Except String String :=
  match c.getApp appID with
  | .error e => .error e
  | .ok app => .ok app.state

/-- Embeds `GetAppDates` (cf.go lines 214–220). -/
def CfClient.GetAppDates (c : CfClient) (appID : String) :
    Except String (String × String) :=
  match c.getApp appID with
  | .error e => .error e
  | .ok app => .ok (app.createdAt, app.updatedAt)

/-- Embeds `GetAppLifecycle` (cf.go lines 222–228). -/
def CfClient.GetAppLifecycle (c : CfClient) (appID : String) :
    Except String (String × List String × String) :=
  match c.getApp appID with
  | .error e => .error e
  | .ok app => .ok (app.lifecycleType, app.buildpacks, app.stack)

/-- Embeds `GetSpaceName` (cf.go lines 256–262). -/
def CfClient.GetSpaceName (c : CfClient) (spaceID : String) : Except String String :=
  match c.getSpace spaceID with
  | .error e => .error e
  | .ok space => .ok space.name

/-- Embeds `GetSpaceMetadata` (cf.go lines 264–270). -/
def CfClient.GetSpaceMetadata (c : CfClient) (spaceID : String) :
    Except String (List (String × String) × List (String × String)) :=
  match c.getSpace spaceID with
  | .error e => .error e
  | .ok space => .ok (space.labels, space.annotations)

/-- Embeds `GetSpaceOrg` (cf.go lines 272–278). -/
def CfClient.GetSpaceOrg (c : CfClient) (spaceID : String) : Except String String :=
  match c.getSpace spaceID with
  | .error e => .error e
  | .ok space => .ok space.orgGUID

/-- Embeds `GetOrgName` (cf.go lines 306–312). -/
def CfClient.GetOrgName (c : CfClient) (orgID : String) : Except String String :=
  match c.getOrg orgID with
  | .error e => .error e
  | .ok org => .ok org.name

/-- Embeds `GetOrgMetadata` (cf.go lines 314–320). -/
def CfClient.GetOrgMetadata (c : CfClient) (orgID : String) :
    Except String (List (String × String) × List (String × String)) :=
  match c.getOrg orgID with
  | .error e => .error e
  | .ok org => .ok (org.labels, org.annotations)

/-! Section: Configuration (`config.go`) -/

def authTypeClientCredentials : String := "client_credentials"

def authTypeUserPass : String := "user_pass"

def authTypeToken : String := "token"

/-- Embeds `CfAuth` — the `auth` configuration block. -/
structure CfAuth where
  authKind : String
  username : String
  password : String
  accessToken : String
  refreshToken : String
  clientID : String
  clientSecret : String
deriving DecidableEq, Repr

/-- Embeds `CfConfig` — the `cloud_foundry` configuration block. -/
structure CfConfig where
  endpoint : String
  auth : CfAuth
deriving DecidableEq, Repr

/-- Embeds `CfTagExtractMetadata` — the `extract.metadata` toggles. -/
structure CfTagExtractMetadata where
  space : Bool
  org : Bool
  app : Bool
deriving DecidableEq, Repr

/-- Embeds `CfTagExtract` — the `extract` block. -/
structure CfTagExtract where
  metadata : CfTagExtractMetadata
  appStateLifecycle : Bool
  appDates : Bool
deriving DecidableEq, Repr

/-- The processor `Config`.  `cacheTTL` is a `time.Duration` in
nanoseconds. -/
structure Config where
  cloudFoundry : CfConfig
  appIDAttributeKeyAssociation : String
  spaceIDAttributeKeyAssociation : String
  cacheTTL : Nat
  extract : CfTagExtract
deriving DecidableEq, Repr

/-- Embeds `fieldError` (config.go lines 129–131). -/
def fieldError (authKind : String) (param : String) : String :=
  param ++ " is required when using auth_type: " ++ authKind

/-- Embeds `Config.Validate` (config.go lines 92–127).  `none` means a `nil`
error.  The Go `switch` on the auth type becomes a chain of equality
tests, preserving the check order (endpoint, then type, then the per-type
required fields in source order). -/
def Config.Validate (config : Config) : Option String :=
  let c := config.cloudFoundry
  if c.endpoint = "" then
    some "CloudFoundry.Endpoint must be specified"
  else if c.auth.authKind = "" then
    some "CloudFoundry.Auth.Type must be specified"
  else if c.auth.authKind = authTypeUserPass then
    if c.auth.username = "" then some (fieldError authTypeUserPass "username")
    else if c.auth.password = "" then some (fieldError authTypeUserPass "password")
    else none
  else if c.auth.authKind = authTypeClientCredentials then
    if c.auth.clientID = "" then some (fieldError authTypeClientCredentials "client_id")
    else if c.auth.clientSecret = "" then
      some (fieldError authTypeClientCredentials "client_secret")
    else none
  else if c.auth.authKind = authTypeToken then
    if c.auth.accessToken = "" then some (fieldError authTypeToken "access_token")
    else if c.auth.refreshToken = "" then
      some (fieldError authTypeToken "refresh_token")
    else none
  else
    some ("configuration option `auth_type` must be set to one of the following values: [user_pass, client_credentials, token]. Specified value: " ++ c.auth.authKind)

/-! Section: Factory defaults (`factory.go`) and `cf.New` defaults -/

/-- Embeds `time.Minute` in nanoseconds. -/
def timeMinute : Nat := 60000000000

/-- Embeds `defaultCacheTTL = 10 * time.Minute` (factory.go). -/
def defaultCacheTTL : Nat := 10 * timeMinute

/-- Embeds `defaultAppIDAttrKeyAssociation` (factory.go). -/
def defaultAppIDAttrKeyAssociation : String := "app_id"

/-- Embeds `createDefaultConfig` (factory.go lines 35–51).  Fields the Go
composite literal leaves out take Go zero values (empty strings, `false`).
-/
def createDefaultConfig : Config :=
  { cloudFoundry := { endpoint := "", auth :=
      { authKind := "", username := "", password := "", accessToken := "",
        refreshToken := "", clientID := "", clientSecret := "" } }
    appIDAttributeKeyAssociation := defaultAppIDAttrKeyAssociation
    spaceIDAttributeKeyAssociation := ""
    cacheTTL := defaultCacheTTL
    extract :=
      { metadata := { space := false, org := false, app := true }
        appStateLifecycle := false
        appDates := false } }

/-- The fields of `cf.Client` that `cf.New` initializes before applying
its functional options (cf.go lines 48–70). -/
structure ClientSettings where
  endpoint : String
  cacheTTL : Nat
  authKind : String
  authID : String
  authSecret : String
deriving DecidableEq, Repr

/-- Embeds `cf.WithUserPassword` (cf.go lines 72–78). -/
def WithUserPassword (userName password : String) : ClientSettings → ClientSettings :=
  fun c => { c with authKind := authTypeUserPass, authID := userName, authSecret := password }

/-- Embeds `cf.WithClientCredentials` (cf.go lines 80–86). -/
def WithClientCredentials (clientID clientSecret : String) : ClientSettings → ClientSettings :=
  fun c => { c with authKind := authTypeClientCredentials, authID := clientID, authSecret := clientSecret }

/-- Embeds `cf.WithToken` (cf.go lines 88–94). -/
def WithToken (token refreshToken : String) : ClientSettings → ClientSettings :=
  fun c => { c with authKind := authTypeToken, authID := token, authSecret := refreshToken }

/-- Embeds `cf.WithCacheTTL` (cf.go lines 96–100). -/
def WithCacheTTL (cacheTTL : Nat) : ClientSettings → ClientSettings :=
  fun c => { c with cacheTTL := cacheTTL }

/-- The settings part of `cf.New` (cf.go lines 48–70): start from the
defaults (`cacheTTL: 10 * time.Minute`, zero-valued auth fields) and apply
the options in order. -/
def cfNew (endpoint : String) (options : List (ClientSettings → ClientSettings)) :
    ClientSettings :=
  options.foldl (fun c o => o c)
    { endpoint := endpoint, cacheTTL := 10 * timeMinute,
      authKind := "", authID := "", authSecret := "" }

/-! Section: The processor (`processor.go`)

Per-resource enrichment.  Each Go function mutates the resource's
attribute map and returns a `(bool, error)`; here the updated map is
threaded explicitly.  The Go early-return blocks of `processAppID`
(one per `if cfap.config.Extract.…` guard) are factored into one
definition per block; `chainE` is the `if err != nil { return false, err }`
sequencing between them. -/

/-- Embeds `cfAttrNSPrefix = "cloudfoundry."` (processor.go).  Shortened name:
the original constant name ends in a word the verification toolchain
treats specially. -/
def cfAttrNS : String := "cloudfoundry."

/-- Embeds `getAppID` (processor.go lines 207–215): the configured app-identity
attribute's string value, or `""` when absent or not a string. -/
def getAppID (cfg : Config) (resource : AttrMap) : String :=
  match resource cfg.appIDAttributeKeyAssociation with
  | some (PVal.str s) => s
  | _ => ""

/-- Embeds `getSpaceID` (processor.go lines 174–182). -/
def getSpaceID (cfg : Config) (resource : AttrMap) : String :=
  match resource cfg.spaceIDAttributeKeyAssociation with
  | some (PVal.str s) => s
  | _ => ""

/-- Write one attribute per pair, key = `pre ++ k` — the
`for k, v := range …` loops of the metadata blocks. -/
def putPairs (m : AttrMap) (pre : String) (l : List (String × String)) : AttrMap :=
  l.foldl (fun acc kv => acc.putStr (pre ++ kv.1) kv.2) m

/-- Write one attribute per element, key = `pre ++ strconv.Itoa i` — the
`for i, v := range buildpacks` loop. -/
def putIndexed (m : AttrMap) (pre : String) (l : List String) : AttrMap :=
  l.enum.foldl (fun acc iv => acc.putStr (pre ++ toString iv.1) iv.2) m

/-- Early-return sequencing: run the continuation only when the first
result carried no error (`if err != nil { return … }`). -/
def chainE (r : AttrMap × Option String) (g : AttrMap → AttrMap × Option String) :
    AttrMap × Option String :=
  match r with
  | (m, some e) => (m, some e)
  | (m, none) => g m

/-- The `if cfap.config.Extract.Metadata.App` block of `processAppID`
(processor.go lines 224–236): labels and annotations, or the
`GetAppMetadata` error. -/
def appMetadataBlock (cfg : Config) (cli : CfClient) (appID : String) (m : AttrMap) :
    AttrMap × Option String :=
  if cfg.extract.metadata.app then
    match cli.GetAppMetadata appID with
    | .ok md =>
      (putPairs (putPairs m (cfAttrNS ++ "app.labels.") md.1)
        (cfAttrNS ++ "app.annotations.") md.2, none)
    | .error e => (m, some e)
  else (m, none)

/-- The `if cfap.config.Extract.AppStateLifecycle` block (processor.go
lines 237–252).  NOTE: the Go source spells the key segment `lifecyle`
(sic); the embedding preserves the misspelling. -/
def appStateLifecycleBlock (cfg : Config) (cli : CfClient) (appID : String)
    (m : AttrMap) : AttrMap × Option String :=
  if cfg.extract.appStateLifecycle then
    match cli.GetAppState appID with
    | .error e => (m, some e)
    | .ok appState =>
      let m := m.putStr (cfAttrNS ++ "app.state") appState
      match cli.GetAppLifecycle appID with
      | .error e => (m, some e)
      | .ok lc =>
        let m := m.putStr (cfAttrNS ++ "app.lifecyle.type") lc.1
        let m := m.putStr (cfAttrNS ++ "app.lifecyle.stack") lc.2.2
        (putIndexed m (cfAttrNS ++ "app.lifecyle.buildpacks.") lc.2.1, none)
  else (m, none)

/-- The `if cfap.config.Extract.AppDates` block (processor.go lines
253–260). -/
def appDatesBlock (cfg : Config) (cli : CfClient) (appID : String) (m : AttrMap) :
    AttrMap × Option String :=
  if cfg.extract.appDates then
    match cli.GetAppDates appID with
    | .error e => (m, some e)
    | .ok dates =>
      ((m.putStr (cfAttrNS ++ "app.created") dates.1).putStr
        (cfAttrNS ++ "app.updated") dates.2, none)
  else (m, none)

/-- Embeds `addSpaceMetadata` (processor.go lines 286–300): space name always,
labels/annotations only when `GetSpaceMetadata` succeeds (its error is
silently dropped — there is no `else` branch in the source; the function
falls through returning `nil`). -/
def addSpaceMetadata (cli : CfClient) (spaceID : String) (m : AttrMap) :
    AttrMap × Option String :=
  match cli.GetSpaceName spaceID with
  | .error e => (m, some e)
  | .ok spaceName =>
    let m := m.putStr (cfAttrNS ++ "space.name") spaceName
    match cli.GetSpaceMetadata spaceID with
    | .ok md =>
      (putPairs (putPairs m (cfAttrNS ++ "space.labels.") md.1)
        (cfAttrNS ++ "space.annotations.") md.2, none)
    | .error _ => (m, none)

/-- Embeds `addOrgMetadata` (processor.go lines 302–317): same shape as
`addSpaceMetadata`, for the organization. -/
def addOrgMetadata (cli : CfClient) (orgID : String) (m : AttrMap) :
    AttrMap × Option String :=
  match cli.GetOrgName orgID with
  | .error e => (m, some e)
  | .ok orgName =>
    let m := m.putStr (cfAttrNS ++ "org.name") orgName
    match cli.GetOrgMetadata orgID with
    | .ok md =>
      (putPairs (putPairs m (cfAttrNS ++ "org.labels.") md.1)
        (cfAttrNS ++ "org.annotations.") md.2, none)
    | .error _ => (m, none)

/-- The `if cfap.config.Extract.Metadata.Org` sub-block shared by both
paths (processor.go lines 270–279 and 191–200): resolve the org id from
the space and add org metadata. -/
def orgBlock (cfg : Config) (cli : CfClient) (spaceID : String) (m : AttrMap) :
    AttrMap × Option String :=
  if cfg.extract.metadata.org then
    match cli.GetSpaceOrg spaceID with
    | .error e => (m, some e)
    | .ok orgID => addOrgMetadata cli orgID m
  else (m, none)

/-- The `if cfap.config.Extract.Metadata.Space` block of `processAppID`
(processor.go lines 261–280): resolve the app's space, add space
metadata, then cascade to the org block. -/
def spaceCascadeBlock (cfg : Config) (cli : CfClient) (appID : String) (m : AttrMap) :
    AttrMap × Option String :=
  if cfg.extract.metadata.space then
    match cli.GetAppSpace appID with
    | .error e => (m, some e)
    | .ok spaceID => chainE (addSpaceMetadata cli spaceID m) (orgBlock cfg cli spaceID)
  else (m, none)

/-- Embeds `processAppID` (processor.go lines 217–284).  Result: updated map,
the `done` flag, and the error. -/
def processAppID (cfg : Config) (cli : CfClient) (resource : AttrMap) :
    AttrMap × Bool × Option String :=
  let appID := getAppID cfg resource
  if appID = "" then (resource, false, none)
  else
    match cli.GetAppName appID with
    | .error e => (resource, false, some e)
    | .ok appName =>
      let m := resource.putStr (cfAttrNS ++ "app.name") appName
      match chainE (chainE (chainE (appMetadataBlock cfg cli appID m)
          (appStateLifecycleBlock cfg cli appID))
          (appDatesBlock cfg cli appID))
          (spaceCascadeBlock cfg cli appID) with
      | (m, some e) => (m, false, some e)
      | (m, none) => (m, true, none)

/-- Embeds `processSpaceID` (processor.go lines 184–205). -/
def processSpaceID (cfg : Config) (cli : CfClient) (resource : AttrMap) :
    AttrMap × Bool × Option String :=
  let spaceID := getSpaceID cfg resource
  if spaceID = "" then (resource, false, none)
  else if cfg.extract.metadata.space then
    match chainE (addSpaceMetadata cli spaceID resource) (orgBlock cfg cli spaceID) with
    | (m, some e) => (m, false, some e)
    | (m, none) => (m, true, none)
  else (resource, false, none)

/-- Embeds `processResource` (processor.go lines 162–172): try the app path;
only when it did not apply (`!done`, no error), try the space path. -/
def processResource (cfg : Config) (cli : CfClient) (resource : AttrMap) :
    AttrMap × Option String :=
  match processAppID cfg cli resource with
  | (m, _, some e) => (m, some e)
  | (m, done, none) =>
    if done then (m, none)
    else
      match processSpaceID cfg cli m with
      | (m2, _, e2) => (m2, e2)

/-- A telemetry batch, reduced to the resources the processor touches
(one attribute map per `ResourceMetrics` / `ResourceLogs` /
`ResourceSpans` entry). -/
def ResourceBatch : Type := List AttrMap

/-- Embeds `processMetrics` (processor.go lines 138–144): enrich every resource,
discard the per-resource error, return the batch and a `nil` error. -/
def processMetrics (cfg : Config) (cli : CfClient) (md : ResourceBatch) :
    ResourceBatch × Option String :=
  (md.map (fun r => (processResource cfg cli r).1), none)

/-- Embeds `processLogs` (processor.go lines 146–152). -/
def processLogs (cfg : Config) (cli : CfClient) (ld : ResourceBatch) :
    ResourceBatch × Option String :=
  (ld.map (fun r => (processResource cfg cli r).1), none)

/-- Embeds `processTraces` (processor.go lines 154–160). -/
def processTraces (cfg : Config) (cli : CfClient) (td : ResourceBatch) :
    ResourceBatch × Option String :=
  (td.map (fun r => (processResource cfg cli r).1), none)

/-! Section: Write-plan semantics

Every attribute mutation performed by the processor is a `putStr`.  To
reason about the enrichment as a whole, each run of `processResource` is
characterized as the application of a *plan* — the list of `(key, value)`
string writes it performs, in order — to the initial map.  The plans are
computed by "ghost" functions mirroring the block structure above; the
factoring lemmas prove the characterization. -/

/-- Apply a list of string writes left to right. -/
def applyWrites (m : AttrMap) (ws : List (String × String)) : AttrMap :=
  ws.foldl (fun acc p => acc.putStr p.1 p.2) m

/-- The value of the last write to `k` in `ws`, if any. -/
def lastVal : List (String × String) → String → Option String
  | [], _ => none
  | p :: ws, k =>
    match lastVal ws k with
    | some v => some v
    | none => if p.1 = k then some p.2 else none

/-! Section: String-key helpers -/

/-- Predicate: `KeyPref p k` holds when `p` is a (string) prefix of `k`. -/
def KeyPref (p k : String) : Prop := ∃ s, k = p ++ s

/-! Section: Plans: the writes each block performs -/

/-- Plan of `putPairs`. -/
def pairsPlan (pre : String) (l : List (String × String)) : List (String × String) :=
  l.map (fun kv => (pre ++ kv.1, kv.2))

/-- Plan of `putIndexed`. -/
def indexedPlan (pre : String) (l : List String) : List (String × String) :=
  l.enum.map (fun iv => (pre ++ toString iv.1, iv.2))

/-- Sequencing of plans under early return. -/
def planSeq (a b : List (String × String) × Option String) :
    List (String × String) × Option String :=
  match a with
  | (ws, some e) => (ws, some e)
  | (ws, none) => (ws ++ b.1, b.2)

/-- Plan of `appMetadataBlock`. -/
def appMetadataPlan (cfg : Config) (cli : CfClient) (appID : String) :
    List (String × String) × Option String :=
  if cfg.extract.metadata.app then
    match cli.GetAppMetadata appID with
    | .ok md =>
      (pairsPlan (cfAttrNS ++ "app.labels.") md.1 ++
        pairsPlan (cfAttrNS ++ "app.annotations.") md.2, none)
    | .error e => ([], some e)
  else ([], none)

/-- Plan of `appStateLifecycleBlock`. -/
def appStateLifecyclePlan (cfg : Config) (cli : CfClient) (appID : String) :
    List (String × String) × Option String :=
  if cfg.extract.appStateLifecycle then
    match cli.GetAppState appID with
    | .error e => ([], some e)
    | .ok appState =>
      match cli.GetAppLifecycle appID with
      | .error e => ([(cfAttrNS ++ "app.state", appState)], some e)
      | .ok lc =>
        ((cfAttrNS ++ "app.state", appState) ::
          (cfAttrNS ++ "app.lifecyle.type", lc.1) ::
          (cfAttrNS ++ "app.lifecyle.stack", lc.2.2) ::
          indexedPlan (cfAttrNS ++ "app.lifecyle.buildpacks.") lc.2.1, none)
  else ([], none)

/-- Plan of `appDatesBlock`. -/
def appDatesPlan (cfg : Config) (cli : CfClient) (appID : String) :
    List (String × String) × Option String :=
  if cfg.extract.appDates then
    match cli.GetAppDates appID with
    | .error e => ([], some e)
    | .ok dates =>
      ([(cfAttrNS ++ "app.created", dates.1), (cfAttrNS ++ "app.updated", dates.2)], none)
  else ([], none)

/-- Plan of `addSpaceMetadata`. -/
def addSpacePlan (cli : CfClient) (spaceID : String) :
    List (String × String) × Option String :=
  match cli.GetSpaceName spaceID with
  | .error e => ([], some e)
  | .ok spaceName =>
    match cli.GetSpaceMetadata spaceID with
    | .ok md =>
      ((cfAttrNS ++ "space.name", spaceName) ::
        (pairsPlan (cfAttrNS ++ "space.labels.") md.1 ++
          pairsPlan (cfAttrNS ++ "space.annotations.") md.2), none)
    | .error _ => ([(cfAttrNS ++ "space.name", spaceName)], none)

/-- Plan of `addOrgMetadata`. -/
def addOrgPlan (cli : CfClient) (orgID : String) :
    List (String × String) × Option String :=
  match cli.GetOrgName orgID with
  | .error e => ([], some e)
  | .ok orgName =>
    match cli.GetOrgMetadata orgID with
    | .ok md =>
      ((cfAttrNS ++ "org.name", orgName) ::
        (pairsPlan (cfAttrNS ++ "org.labels.") md.1 ++
          pairsPlan (cfAttrNS ++ "org.annotations.") md.2), none)
    | .error _ => ([(cfAttrNS ++ "org.name", orgName)], none)

/-- Plan of `orgBlock`. -/
def orgPlan (cfg : Config) (cli : CfClient) (spaceID : String) :
    List (String × String) × Option String :=
  if cfg.extract.metadata.org then
    match cli.GetSpaceOrg spaceID with
    | .error e => ([], some e)
    | .ok orgID => addOrgPlan cli orgID
  else ([], none)

/-- Plan of `spaceCascadeBlock`. -/
def spaceCascadePlan (cfg : Config) (cli : CfClient) (appID : String) :
    List (String × String) × Option String :=
  if cfg.extract.metadata.space then
    match cli.GetAppSpace appID with
    | .error e => ([], some e)
    | .ok spaceID => planSeq (addSpacePlan cli spaceID) (orgPlan cfg cli spaceID)
  else ([], none)

/-- Plan of the four blocks of `processAppID` after the `app.name` write. -/
def appAfterNamePlan (cfg : Config) (cli : CfClient) (appID : String) :
    List (String × String) × Option String :=
  planSeq (planSeq (planSeq (appMetadataPlan cfg cli appID)
    (appStateLifecyclePlan cfg cli appID))
    (appDatesPlan cfg cli appID))
    (spaceCascadePlan cfg cli appID)

/-- Plan of `processSpaceID` given the space-identity value. -/
def spacePathPlan (cfg : Config) (cli : CfClient) (spaceID : String) :
    List (String × String) × Option String :=
  if spaceID = "" then ([], none)
  else if cfg.extract.metadata.space then
    planSeq (addSpacePlan cli spaceID) (orgPlan cfg cli spaceID)
  else ([], none)

/-- Plan of `processResource` given the two identity values read from the
resource. -/
def resSpec (cfg : Config) (cli : CfClient) (appID spaceID : String) :
    List (String × String) × Option String :=
  if appID = "" then spacePathPlan cfg cli spaceID
  else
    match cli.GetAppName appID with
    | .error e => ([], some e)
    | .ok appName =>
      ((cfAttrNS ++ "app.name", appName) :: (appAfterNamePlan cfg cli appID).1,
        (appAfterNamePlan cfg cli appID).2)

/-! Section: Key shapes: which keys enrichment can write -/

/-- Keys writable by the blocks following the `app.name` write, and by the
space path: each guarded by the flag that enables the corresponding
block. -/
def WrittenShapeRest (cfg : Config) (k : String) : Prop :=
  (cfg.extract.metadata.app = true ∧
    (KeyPref (cfAttrNS ++ "app.labels.") k ∨ KeyPref (cfAttrNS ++ "app.annotations.") k))
  ∨ (cfg.extract.appStateLifecycle = true ∧
    (k = cfAttrNS ++ "app.state" ∨ k = cfAttrNS ++ "app.lifecyle.type" ∨
      k = cfAttrNS ++ "app.lifecyle.stack" ∨
      KeyPref (cfAttrNS ++ "app.lifecyle.buildpacks.") k))
  ∨ (cfg.extract.appDates = true ∧
    (k = cfAttrNS ++ "app.created" ∨ k = cfAttrNS ++ "app.updated"))
  ∨ (cfg.extract.metadata.space = true ∧
    (k = cfAttrNS ++ "space.name" ∨ KeyPref (cfAttrNS ++ "space.labels.") k ∨
      KeyPref (cfAttrNS ++ "space.annotations.") k))
  ∨ (cfg.extract.metadata.space = true ∧ cfg.extract.metadata.org = true ∧
    (k = cfAttrNS ++ "org.name" ∨ KeyPref (cfAttrNS ++ "org.labels.") k ∨
      KeyPref (cfAttrNS ++ "org.annotations.") k))

/-- Keys writable by `processResource` as a whole. -/
def WrittenShape (cfg : Config) (k : String) : Prop :=
  k = cfAttrNS ++ "app.name" ∨ WrittenShapeRest cfg k

/-! Section: Concrete fixtures used by witnesses and counterexamples -/

/-- A client whose every resolution fails (used where the theorem must
hold for any client). -/
def cliTrivial : CfClient :=
  { getApp := fun _ => .error "unreachable"
    getSpace := fun _ => .error "unreachable"
    getOrg := fun _ => .error "unreachable" }

/-- A sample application. -/
def appSample : CfApp :=
  { name := "svc", labels := [("team", "x")], annotations := []
    state := "STARTED", lifecycleType := "buildpack"
    buildpacks := ["bp0", "bp1"], stack := "cflinuxfs4"
    createdAt := "2024-01-01", updatedAt := "2024-01-02", spaceGUID := "s-1" }

/-- A sample space. -/
def spaceSample : CfSpace :=
  { name := "prod", labels := [], annotations := [], orgGUID := "o-1" }

/-- A sample organization. -/
def orgSample : CfOrg := { name := "acme", labels := [], annotations := [] }

/-- Cache-aside client fixture: cache always misses, every fetch
succeeds, and every serialization fails. -/
def clientEncodeFail : Client :=
  { cacheGet := fun _ => none
    cacheSet := fun _ _ => none
    applicationsGet := fun _ => .ok appSample
    spacesGet := fun _ => .ok spaceSample
    organizationsGet := fun _ => .ok orgSample
    serializeApp := fun _ => .error "gob: unsupported type"
    deserializeApp := fun _ => .error "nf"
    serializeSpace := fun _ => .error "gob: unsupported type"
    deserializeSpace := fun _ => .error "nf"
    serializeOrg := fun _ => .error "gob: unsupported type"
    deserializeOrg := fun _ => .error "nf" }

/-! Section: C8 — configuration validation -/

/-- A fully populated auth scheme of one of the three supported types. -/
def validAuthScheme (a : CfAuth) : Prop :=
  (a.authKind = authTypeUserPass ∧ a.username ≠ "" ∧ a.password ≠ "")
  ∨ (a.authKind = authTypeClientCredentials ∧ a.clientID ≠ "" ∧ a.clientSecret ≠ "")
  ∨ (a.authKind = authTypeToken ∧ a.accessToken ≠ "" ∧ a.refreshToken ≠ "")

/-- C8 counterexample datum: an empty endpoint together with a fully
populated `user_pass` scheme. -/
def cfgEmptyEndpoint : Config :=
  { cloudFoundry :=
      { endpoint := ""
        auth :=
          { authKind := "user_pass"
            username := "admin"
            password := "secret"
            accessToken := ""
            refreshToken := ""
            clientID := ""
            clientSecret := "" } }
    appIDAttributeKeyAssociation := "app_id"
    spaceIDAttributeKeyAssociation := ""
    cacheTTL := 0
    extract :=
      { metadata := { space := false, org := false, app := true }
        appStateLifecycle := false
        appDates := false } }

/-- A fully valid `user_pass` configuration (non-empty endpoint). -/
def cfgValid : Config :=
  { cloudFoundry :=
      { endpoint := "https://api.sys.example.com"
        auth :=
          { authKind := "user_pass"
            username := "admin"
            password := "secret"
            accessToken := ""
            refreshToken := ""
            clientID := ""
            clientSecret := "" } }
    appIDAttributeKeyAssociation := "app_id"
    spaceIDAttributeKeyAssociation := ""
    cacheTTL := 0
    extract :=
      { metadata := { space := false, org := false, app := true }
        appStateLifecycle := false
        appDates := false } }

/-- Like `cfgValid` but with an empty password. -/
def cfgMissingPassword : Config :=
  { cloudFoundry :=
      { endpoint := "https://api.sys.example.com"
        auth :=
          { authKind := "user_pass"
            username := "admin"
            password := ""
            accessToken := ""
            refreshToken := ""
            clientID := ""
            clientSecret := "" } }
    appIDAttributeKeyAssociation := "app_id"
    spaceIDAttributeKeyAssociation := ""
    cacheTTL := 0
    extract :=
      { metadata := { space := false, org := false, app := true }
        appStateLifecycle := false
        appDates := false } }

/-! Section: C2 — app-state-lifecycle attribute keys -/

/-- Configuration for the C2 scenario: app path with
`app_state_lifecycle` enabled. -/
def cfgLifecycle : Config :=
  { cloudFoundry :=
      { endpoint := "https://api.sys.example.com"
        auth :=
          { authKind := "user_pass"
            username := "admin"
            password := "secret"
            accessToken := ""
            refreshToken := ""
            clientID := ""
            clientSecret := "" } }
    appIDAttributeKeyAssociation := "app_id"
    spaceIDAttributeKeyAssociation := ""
    cacheTTL := 0
    extract :=
      { metadata := { space := false, org := false, app := false }
        appStateLifecycle := true
        appDates := false } }

/-- A client that resolves application `A1` to `appSample`. -/
def cliA1 : CfClient :=
  { getApp := fun i => if i = "A1" then .ok appSample else .error "not found"
    getSpace := fun _ => .error "not found"
    getOrg := fun _ => .error "not found" }

/-- The C2 resource: only the identity attribute `app_id = "A1"`. -/
def resA1 : AttrMap := fun k => if k = "app_id" then some (PVal.str "A1") else none

/-! Section: C7 — idempotence of enrichment -/

/-- A pathological but validation-legal configuration: the app-identity
attribute key is itself `cloudfoundry.app.name`, which enrichment
overwrites. -/
def cfgIdemCE : Config :=
  { cloudFoundry :=
      { endpoint := "https://api.sys.example.com"
        auth :=
          { authKind := "user_pass"
            username := "admin"
            password := "secret"
            accessToken := ""
            refreshToken := ""
            clientID := ""
            clientSecret := "" } }
    appIDAttributeKeyAssociation := "cloudfoundry.app.name"
    spaceIDAttributeKeyAssociation := ""
    cacheTTL := 0
    extract :=
      { metadata := { space := false, org := false, app := false }
        appStateLifecycle := false
        appDates := false } }

/-- Fixed upstream data for the counterexample: app `A1` is named `B`,
and an app `B` also exists, named `C`. -/
def cliIdemCE : CfClient :=
  { getApp := fun i =>
      if i = "A1" then .ok { appSample with name := "B" }
      else if i = "B" then .ok { appSample with name := "C" }
      else .error "not found"
    getSpace := fun _ => .error "not found"
    getOrg := fun _ => .error "not found" }

/-- The counterexample resource: the identity attribute (key
`cloudfoundry.app.name`) holds `A1`. -/
def resIdemCE : AttrMap :=
  fun k => if k = "cloudfoundry.app.name" then some (PVal.str "A1") else none

/-- Configuration with both identity associations bound, for the C10
witness. -/
def cfgNonString : Config :=
  { cloudFoundry := createDefaultConfig.cloudFoundry
    appIDAttributeKeyAssociation := "app_id"
    spaceIDAttributeKeyAssociation := "space_id"
    cacheTTL := defaultCacheTTL
    extract := createDefaultConfig.extract }

/-- A resource whose identity attributes hold non-string values. -/
def resNonString : AttrMap :=
  fun k =>
    if k = "app_id" then some (PVal.int 5)
    else if k = "space_id" then some (PVal.int 7)
    else none

/-! Section: Theorems -/

@[simp] theorem applyWrites_nil (m : AttrMap) : applyWrites m [] = m := rfl

theorem applyWrites_cons (m : AttrMap) (p : String × String) (ws : List (String × String)) :
    applyWrites m (p :: ws) = applyWrites (m.putStr p.1 p.2) ws := rfl

theorem applyWrites_append (m : AttrMap) (l₁ l₂ : List (String × String)) :
    applyWrites m (l₁ ++ l₂) = applyWrites (applyWrites m l₁) l₂ := by
  simp [applyWrites, List.foldl_append]

/-- Pointwise characterization of `applyWrites`: the last write wins,
otherwise the original binding survives. -/
theorem applyWrites_get (ws : List (String × String)) (m : AttrMap) (k : String) :
    applyWrites m ws k =
      match lastVal ws k with
      | some v => some (PVal.str v)
      | none => m k := by
  induction ws generalizing m with
  | nil => simp [applyWrites, lastVal]
  | cons p ws ih =>
    rw [applyWrites_cons, ih]
    cases h : lastVal ws k with
    | some v => simp [lastVal, h]
    | none =>
      by_cases hk : p.1 = k
      · simp [lastVal, h, hk, AttrMap.putStr]
      · have hk' : ¬ k = p.1 := fun hkk => hk hkk.symm
        simp [lastVal, h, hk, hk', AttrMap.putStr]

theorem lastVal_eq_none (ws : List (String × String)) (k : String)
    (h : ∀ p ∈ ws, p.1 ≠ k) : lastVal ws k = none := by
  induction ws with
  | nil => rfl
  | cons p ws ih =>
    have h1 : p.1 ≠ k := h p (List.mem_cons_self p ws)
    have h2 : ∀ q ∈ ws, q.1 ≠ k := fun q hq => h q (List.mem_cons_of_mem p hq)
    simp [lastVal, ih h2, h1]

/-- Applying the same plan twice is the same as applying it once. -/
theorem applyWrites_idem (m : AttrMap) (ws : List (String × String)) :
    applyWrites (applyWrites m ws) ws = applyWrites m ws := by
  funext k
  rw [applyWrites_get, applyWrites_get]
  cases h : lastVal ws k with
  | some v => simp
  | none => simp [applyWrites_get, h]

/-- If `k` is the key of no element of the plan, the binding at `k` is
unchanged. -/
theorem applyWrites_get_of_ne (ws : List (String × String)) (m : AttrMap) (k : String)
    (h : ∀ p ∈ ws, p.1 ≠ k) : applyWrites m ws k = m k := by
  rw [applyWrites_get, lastVal_eq_none ws k h]

theorem not_keypref_of_take (p c : String)
    (h : c.data.take p.data.length ≠ p.data) : ¬ KeyPref p c := by
  rintro ⟨s, rfl⟩
  apply h
  rw [String.data_append, List.take_left]

theorem not_keypref_append_of_take (p c : String)
    (h : p.data.take (min p.data.length c.data.length) ≠
      c.data.take (min p.data.length c.data.length)) (s : String) :
    ¬ KeyPref p (c ++ s) := by
  rintro ⟨t, ht⟩
  apply h
  have hd : c.data ++ s.data = p.data ++ t.data := by
    have := congrArg String.data ht
    simpa [String.data_append] using this
  calc p.data.take (min p.data.length c.data.length)
      = (p.data ++ t.data).take (min p.data.length c.data.length) :=
        (List.take_append_of_le_length (Nat.min_le_left _ _)).symm
    _ = (c.data ++ s.data).take (min p.data.length c.data.length) := by rw [hd]
    _ = c.data.take (min p.data.length c.data.length) :=
        List.take_append_of_le_length (Nat.min_le_right _ _)

theorem keypref_append_of {p c : String} (r : String) (h : c = p ++ r) (s : String) :
    KeyPref p (c ++ s) := ⟨r ++ s, by rw [h, String.append_assoc]⟩

theorem keypref_refl_append (p s : String) : KeyPref p (p ++ s) := ⟨s, rfl⟩

/-- A key with prefix `p` cannot equal a concrete key `c` that does not
have prefix `p`. -/
theorem ne_of_keypref (p k c : String) (hk : KeyPref p k) (hc : ¬ KeyPref p c) :
    k ≠ c := fun h => hc (h ▸ hk)

/-! Section: Factoring lemmas: each block applies its plan -/

theorem putPairs_factor (m : AttrMap) (pre : String) (l : List (String × String)) :
    putPairs m pre l = applyWrites m (pairsPlan pre l) := by
  simp [putPairs, pairsPlan, applyWrites, List.foldl_map]

theorem putIndexed_factor (m : AttrMap) (pre : String) (l : List String) :
    putIndexed m pre l = applyWrites m (indexedPlan pre l) := by
  simp [putIndexed, indexedPlan, applyWrites, List.foldl_map]

theorem chainE_factor {g : AttrMap → AttrMap × Option String}
    {b : List (String × String) × Option String}
    (hg : ∀ m', g m' = (applyWrites m' b.1, b.2))
    (m : AttrMap) (a : List (String × String) × Option String) :
    chainE (applyWrites m a.1, a.2) g =
      (applyWrites m (planSeq a b).1, (planSeq a b).2) := by
  rcases a with ⟨ws, e⟩
  cases e with
  | none => simp [chainE, planSeq, hg, applyWrites_append]
  | some e => simp [chainE, planSeq]

theorem appMetadataBlock_factor (cfg : Config) (cli : CfClient) (appID : String)
    (m : AttrMap) :
    appMetadataBlock cfg cli appID m =
      (applyWrites m (appMetadataPlan cfg cli appID).1,
        (appMetadataPlan cfg cli appID).2) := by
  by_cases hf : cfg.extract.metadata.app
  · cases hmd : cli.GetAppMetadata appID with
    | ok md =>
      simp [appMetadataBlock, appMetadataPlan, hf, hmd, putPairs_factor,
        applyWrites_append]
    | error e => simp [appMetadataBlock, appMetadataPlan, hf, hmd]
  · simp [appMetadataBlock, appMetadataPlan, hf]

theorem appStateLifecycleBlock_factor (cfg : Config) (cli : CfClient) (appID : String)
    (m : AttrMap) :
    appStateLifecycleBlock cfg cli appID m =
      (applyWrites m (appStateLifecyclePlan cfg cli appID).1,
        (appStateLifecyclePlan cfg cli appID).2) := by
  by_cases hf : cfg.extract.appStateLifecycle
  · cases hst : cli.GetAppState appID with
    | error e => simp [appStateLifecycleBlock, appStateLifecyclePlan, hf, hst]
    | ok appState =>
      cases hlc : cli.GetAppLifecycle appID with
      | error e =>
        simp [appStateLifecycleBlock, appStateLifecyclePlan, hf, hst, hlc,
          applyWrites_cons, applyWrites_nil]
      | ok lc =>
        simp [appStateLifecycleBlock, appStateLifecyclePlan, hf, hst, hlc,
          applyWrites_cons, putIndexed_factor]
  · simp [appStateLifecycleBlock, appStateLifecyclePlan, hf]

theorem appDatesBlock_factor (cfg : Config) (cli : CfClient) (appID : String)
    (m : AttrMap) :
    appDatesBlock cfg cli appID m =
      (applyWrites m (appDatesPlan cfg cli appID).1,
        (appDatesPlan cfg cli appID).2) := by
  by_cases hf : cfg.extract.appDates
  · cases hd : cli.GetAppDates appID with
    | error e => simp [appDatesBlock, appDatesPlan, hf, hd]
    | ok dates =>
      simp [appDatesBlock, appDatesPlan, hf, hd, applyWrites_cons, applyWrites_nil]
  · simp [appDatesBlock, appDatesPlan, hf]

theorem addSpaceMetadata_factor (cli : CfClient) (spaceID : String) (m : AttrMap) :
    addSpaceMetadata cli spaceID m =
      (applyWrites m (addSpacePlan cli spaceID).1, (addSpacePlan cli spaceID).2) := by
  cases hn : cli.GetSpaceName spaceID with
  | error e => simp [addSpaceMetadata, addSpacePlan, hn]
  | ok spaceName =>
    cases hmd : cli.GetSpaceMetadata spaceID with
    | ok md =>
      simp [addSpaceMetadata, addSpacePlan, hn, hmd, applyWrites_cons,
        putPairs_factor, applyWrites_append]
    | error e =>
      simp [addSpaceMetadata, addSpacePlan, hn, hmd, applyWrites_cons, applyWrites_nil]

theorem addOrgMetadata_factor (cli : CfClient) (orgID : String) (m : AttrMap) :
    addOrgMetadata cli orgID m =
      (applyWrites m (addOrgPlan cli orgID).1, (addOrgPlan cli orgID).2) := by
  cases hn : cli.GetOrgName orgID with
  | error e => simp [addOrgMetadata, addOrgPlan, hn]
  | ok orgName =>
    cases hmd : cli.GetOrgMetadata orgID with
    | ok md =>
      simp [addOrgMetadata, addOrgPlan, hn, hmd, applyWrites_cons,
        putPairs_factor, applyWrites_append]
    | error e =>
      simp [addOrgMetadata, addOrgPlan, hn, hmd, applyWrites_cons, applyWrites_nil]

theorem orgBlock_factor (cfg : Config) (cli : CfClient) (spaceID : String)
    (m : AttrMap) :
    orgBlock cfg cli spaceID m =
      (applyWrites m (orgPlan cfg cli spaceID).1, (orgPlan cfg cli spaceID).2) := by
  by_cases hf : cfg.extract.metadata.org
  · cases ho : cli.GetSpaceOrg spaceID with
    | error e => simp [orgBlock, orgPlan, hf, ho]
    | ok orgID => simp [orgBlock, orgPlan, hf, ho, addOrgMetadata_factor]
  · simp [orgBlock, orgPlan, hf]

theorem spaceCascadeBlock_factor (cfg : Config) (cli : CfClient) (appID : String)
    (m : AttrMap) :
    spaceCascadeBlock cfg cli appID m =
      (applyWrites m (spaceCascadePlan cfg cli appID).1,
        (spaceCascadePlan cfg cli appID).2) := by
  by_cases hf : cfg.extract.metadata.space
  · cases hs : cli.GetAppSpace appID with
    | error e => simp [spaceCascadeBlock, spaceCascadePlan, hf, hs]
    | ok spaceID =>
      rw [spaceCascadeBlock, spaceCascadePlan]
      simp only [hf, if_true, hs]
      rw [addSpaceMetadata_factor]
      exact chainE_factor (orgBlock_factor cfg cli spaceID) m (addSpacePlan cli spaceID)
  · simp [spaceCascadeBlock, spaceCascadePlan, hf]

/-- The chained app blocks of `processAppID` apply `appAfterNamePlan`. -/
theorem appChain_factor (cfg : Config) (cli : CfClient) (appID : String) (m : AttrMap) :
    chainE (chainE (chainE (appMetadataBlock cfg cli appID m)
        (appStateLifecycleBlock cfg cli appID))
        (appDatesBlock cfg cli appID))
        (spaceCascadeBlock cfg cli appID) =
      (applyWrites m (appAfterNamePlan cfg cli appID).1,
        (appAfterNamePlan cfg cli appID).2) := by
  rw [appMetadataBlock_factor,
    chainE_factor (appStateLifecycleBlock_factor cfg cli appID) m
      (appMetadataPlan cfg cli appID),
    chainE_factor (appDatesBlock_factor cfg cli appID) m
      (planSeq (appMetadataPlan cfg cli appID) (appStateLifecyclePlan cfg cli appID)),
    chainE_factor (spaceCascadeBlock_factor cfg cli appID) m
      (planSeq (planSeq (appMetadataPlan cfg cli appID)
        (appStateLifecyclePlan cfg cli appID)) (appDatesPlan cfg cli appID))]
  rfl

/-- Factoring: `processResource` applies exactly the plan determined by the two
identity attributes it reads, and reports the plan's error. -/
theorem processResource_factor (cfg : Config) (cli : CfClient) (m : AttrMap) :
    processResource cfg cli m =
      (applyWrites m (resSpec cfg cli (getAppID cfg m) (getSpaceID cfg m)).1,
        (resSpec cfg cli (getAppID cfg m) (getSpaceID cfg m)).2) := by
  by_cases ha : getAppID cfg m = ""
  · have happ : processAppID cfg cli m = (m, false, none) := by
      simp [processAppID, ha]
    by_cases hs : getSpaceID cfg m = ""
    · simp [processResource, happ, processSpaceID, hs, resSpec, ha, spacePathPlan]
    · by_cases hsp : cfg.extract.metadata.space
      · have hchain :
            chainE (addSpaceMetadata cli (getSpaceID cfg m) m)
              (orgBlock cfg cli (getSpaceID cfg m)) =
            (applyWrites m (planSeq (addSpacePlan cli (getSpaceID cfg m))
                (orgPlan cfg cli (getSpaceID cfg m))).1,
              (planSeq (addSpacePlan cli (getSpaceID cfg m))
                (orgPlan cfg cli (getSpaceID cfg m))).2) := by
          rw [addSpaceMetadata_factor]
          exact chainE_factor (orgBlock_factor cfg cli (getSpaceID cfg m)) m
            (addSpacePlan cli (getSpaceID cfg m))
        cases he : (planSeq (addSpacePlan cli (getSpaceID cfg m))
            (orgPlan cfg cli (getSpaceID cfg m))).2 with
        | none =>
          simp [processResource, happ, processSpaceID, hs, hsp, hchain, he,
            resSpec, ha, spacePathPlan]
        | some e =>
          simp [processResource, happ, processSpaceID, hs, hsp, hchain, he,
            resSpec, ha, spacePathPlan]
      · simp [processResource, happ, processSpaceID, hs, hsp, resSpec, ha, spacePathPlan]
  · cases hn : cli.GetAppName (getAppID cfg m) with
    | error e =>
      simp [processResource, processAppID, ha, hn, resSpec]
    | ok appName =>
      have hchain := appChain_factor cfg cli (getAppID cfg m)
        (m.putStr (cfAttrNS ++ "app.name") appName)
      cases he : (appAfterNamePlan cfg cli (getAppID cfg m)).2 with
      | none =>
        simp [processResource, processAppID, ha, hn, hchain, he, resSpec,
          applyWrites_cons]
      | some e =>
        simp [processResource, processAppID, ha, hn, hchain, he, resSpec,
          applyWrites_cons]

theorem mem_pairsPlan {p : String × String} {pre : String} {l : List (String × String)}
    (h : p ∈ pairsPlan pre l) : KeyPref pre p.1 := by
  simp only [pairsPlan, List.mem_map] at h
  rcases h with ⟨kv, _, rfl⟩
  exact ⟨kv.1, rfl⟩

theorem mem_indexedPlan {p : String × String} {pre : String} {l : List String}
    (h : p ∈ indexedPlan pre l) : KeyPref pre p.1 := by
  simp only [indexedPlan, List.mem_map] at h
  rcases h with ⟨iv, _, rfl⟩
  exact ⟨toString iv.1, rfl⟩

theorem mem_planSeq {p : String × String} {a b : List (String × String) × Option String}
    (h : p ∈ (planSeq a b).1) : p ∈ a.1 ∨ p ∈ b.1 := by
  rcases a with ⟨ws, e⟩
  cases e with
  | none => simpa [planSeq] using h
  | some e => exact Or.inl (by simpa [planSeq] using h)

theorem mem_appMetadataPlan {cfg : Config} {cli : CfClient} {appID : String}
    {p : String × String} (h : p ∈ (appMetadataPlan cfg cli appID).1) :
    cfg.extract.metadata.app = true ∧
      (KeyPref (cfAttrNS ++ "app.labels.") p.1 ∨
        KeyPref (cfAttrNS ++ "app.annotations.") p.1) := by
  by_cases hf : cfg.extract.metadata.app
  · refine ⟨hf, ?_⟩
    cases hmd : cli.GetAppMetadata appID with
    | ok md =>
      rw [appMetadataPlan] at h
      simp only [hf, if_true, hmd, List.mem_append] at h
      rcases h with h | h
      · exact Or.inl (mem_pairsPlan h)
      · exact Or.inr (mem_pairsPlan h)
    | error e => simp [appMetadataPlan, hf, hmd] at h
  · simp [appMetadataPlan, hf] at h

theorem mem_appStateLifecyclePlan {cfg : Config} {cli : CfClient} {appID : String}
    {p : String × String} (h : p ∈ (appStateLifecyclePlan cfg cli appID).1) :
    cfg.extract.appStateLifecycle = true ∧
      (p.1 = cfAttrNS ++ "app.state" ∨ p.1 = cfAttrNS ++ "app.lifecyle.type" ∨
        p.1 = cfAttrNS ++ "app.lifecyle.stack" ∨
        KeyPref (cfAttrNS ++ "app.lifecyle.buildpacks.") p.1) := by
  by_cases hf : cfg.extract.appStateLifecycle
  · refine ⟨hf, ?_⟩
    cases hst : cli.GetAppState appID with
    | error e => simp [appStateLifecyclePlan, hf, hst] at h
    | ok appState =>
      cases hlc : cli.GetAppLifecycle appID with
      | error e =>
        rw [appStateLifecyclePlan] at h
        simp only [hf, if_true, hst, hlc, List.mem_singleton] at h
        exact Or.inl (by rw [h])
      | ok lc =>
        rw [appStateLifecyclePlan] at h
        simp only [hf, if_true, hst, hlc, List.mem_cons] at h
        rcases h with h | h | h | h
        · exact Or.inl (by rw [h])
        · exact Or.inr (Or.inl (by rw [h]))
        · exact Or.inr (Or.inr (Or.inl (by rw [h])))
        · exact Or.inr (Or.inr (Or.inr (mem_indexedPlan h)))
  · simp [appStateLifecyclePlan, hf] at h

theorem mem_appDatesPlan {cfg : Config} {cli : CfClient} {appID : String}
    {p : String × String} (h : p ∈ (appDatesPlan cfg cli appID).1) :
    cfg.extract.appDates = true ∧
      (p.1 = cfAttrNS ++ "app.created" ∨ p.1 = cfAttrNS ++ "app.updated") := by
  by_cases hf : cfg.extract.appDates
  · refine ⟨hf, ?_⟩
    cases hd : cli.GetAppDates appID with
    | error e => simp [appDatesPlan, hf, hd] at h
    | ok dates =>
      rw [appDatesPlan] at h
      simp only [hf, if_true, hd, List.mem_cons, List.mem_singleton] at h
      rcases h with h | h
      · exact Or.inl (by rw [h])
      · rcases h with h | h
        · exact Or.inr (by rw [h])
        · simp at h
  · simp [appDatesPlan, hf] at h

theorem mem_addSpacePlan {cli : CfClient} {spaceID : String} {p : String × String}
    (h : p ∈ (addSpacePlan cli spaceID).1) :
    p.1 = cfAttrNS ++ "space.name" ∨ KeyPref (cfAttrNS ++ "space.labels.") p.1 ∨
      KeyPref (cfAttrNS ++ "space.annotations.") p.1 := by
  cases hn : cli.GetSpaceName spaceID with
  | error e => simp [addSpacePlan, hn] at h
  | ok spaceName =>
    cases hmd : cli.GetSpaceMetadata spaceID with
    | ok md =>
      rw [addSpacePlan] at h
      simp only [hn, hmd, List.mem_cons, List.mem_append] at h
      rcases h with h | h | h
      · exact Or.inl (by rw [h])
      · exact Or.inr (Or.inl (mem_pairsPlan h))
      · exact Or.inr (Or.inr (mem_pairsPlan h))
    | error e =>
      rw [addSpacePlan] at h
      simp only [hn, hmd, List.mem_singleton] at h
      exact Or.inl (by rw [h])

theorem mem_addOrgPlan {cli : CfClient} {orgID : String} {p : String × String}
    (h : p ∈ (addOrgPlan cli orgID).1) :
    p.1 = cfAttrNS ++ "org.name" ∨ KeyPref (cfAttrNS ++ "org.labels.") p.1 ∨
      KeyPref (cfAttrNS ++ "org.annotations.") p.1 := by
  cases hn : cli.GetOrgName orgID with
  | error e => simp [addOrgPlan, hn] at h
  | ok orgName =>
    cases hmd : cli.GetOrgMetadata orgID with
    | ok md =>
      rw [addOrgPlan] at h
      simp only [hn, hmd, List.mem_cons, List.mem_append] at h
      rcases h with h | h | h
      · exact Or.inl (by rw [h])
      · exact Or.inr (Or.inl (mem_pairsPlan h))
      · exact Or.inr (Or.inr (mem_pairsPlan h))
    | error e =>
      rw [addOrgPlan] at h
      simp only [hn, hmd, List.mem_singleton] at h
      exact Or.inl (by rw [h])

theorem mem_orgPlan {cfg : Config} {cli : CfClient} {spaceID : String}
    {p : String × String} (h : p ∈ (orgPlan cfg cli spaceID).1) :
    cfg.extract.metadata.org = true ∧
      (p.1 = cfAttrNS ++ "org.name" ∨ KeyPref (cfAttrNS ++ "org.labels.") p.1 ∨
        KeyPref (cfAttrNS ++ "org.annotations.") p.1) := by
  by_cases hf : cfg.extract.metadata.org
  · refine ⟨hf, ?_⟩
    cases ho : cli.GetSpaceOrg spaceID with
    | error e => simp [orgPlan, hf, ho] at h
    | ok orgID =>
      rw [orgPlan] at h
      simp only [hf, if_true, ho] at h
      exact mem_addOrgPlan h
  · simp [orgPlan, hf] at h

theorem mem_spaceCascadePlan {cfg : Config} {cli : CfClient} {appID : String}
    {p : String × String} (h : p ∈ (spaceCascadePlan cfg cli appID).1) :
    (cfg.extract.metadata.space = true ∧
      (p.1 = cfAttrNS ++ "space.name" ∨ KeyPref (cfAttrNS ++ "space.labels.") p.1 ∨
        KeyPref (cfAttrNS ++ "space.annotations.") p.1))
    ∨ (cfg.extract.metadata.space = true ∧ cfg.extract.metadata.org = true ∧
      (p.1 = cfAttrNS ++ "org.name" ∨ KeyPref (cfAttrNS ++ "org.labels.") p.1 ∨
        KeyPref (cfAttrNS ++ "org.annotations.") p.1)) := by
  by_cases hf : cfg.extract.metadata.space
  · cases hs : cli.GetAppSpace appID with
    | error e => simp [spaceCascadePlan, hf, hs] at h
    | ok spaceID =>
      rw [spaceCascadePlan] at h
      simp only [hf, if_true, hs] at h
      rcases mem_planSeq h with h | h
      · exact Or.inl ⟨hf, mem_addSpacePlan h⟩
      · rcases mem_orgPlan h with ⟨ho, hsh⟩
        exact Or.inr ⟨hf, ho, hsh⟩
  · simp [spaceCascadePlan, hf] at h

theorem mem_appAfterNamePlan {cfg : Config} {cli : CfClient} {appID : String}
    {p : String × String} (h : p ∈ (appAfterNamePlan cfg cli appID).1) :
    WrittenShapeRest cfg p.1 := by
  rw [appAfterNamePlan] at h
  rcases mem_planSeq h with h | h
  · rcases mem_planSeq h with h | h
    · rcases mem_planSeq h with h | h
      · exact Or.inl (mem_appMetadataPlan h)
      · exact Or.inr (Or.inl (mem_appStateLifecyclePlan h))
    · exact Or.inr (Or.inr (Or.inl (mem_appDatesPlan h)))
  · rcases mem_spaceCascadePlan h with h | h
    · exact Or.inr (Or.inr (Or.inr (Or.inl h)))
    · exact Or.inr (Or.inr (Or.inr (Or.inr h)))

theorem mem_spacePathPlan {cfg : Config} {cli : CfClient} {spaceID : String}
    {p : String × String} (h : p ∈ (spacePathPlan cfg cli spaceID).1) :
    WrittenShapeRest cfg p.1 := by
  by_cases hz : spaceID = ""
  · simp [spacePathPlan, hz] at h
  · by_cases hf : cfg.extract.metadata.space
    · rw [spacePathPlan] at h
      simp only [hz, if_false, hf, if_true] at h
      rcases mem_planSeq h with h | h
      · exact Or.inr (Or.inr (Or.inr (Or.inl ⟨hf, mem_addSpacePlan h⟩)))
      · rcases mem_orgPlan h with ⟨ho, hsh⟩
        exact Or.inr (Or.inr (Or.inr (Or.inr ⟨hf, ho, hsh⟩)))
    · simp [spacePathPlan, hz, hf] at h

theorem mem_resSpec {cfg : Config} {cli : CfClient} {appID spaceID : String}
    {p : String × String} (h : p ∈ (resSpec cfg cli appID spaceID).1) :
    WrittenShape cfg p.1 := by
  by_cases ha : appID = ""
  · rw [resSpec] at h
    simp only [ha, if_true] at h
    exact Or.inr (mem_spacePathPlan h)
  · cases hn : cli.GetAppName appID with
    | error e => simp [resSpec, ha, hn] at h
    | ok appName =>
      rw [resSpec] at h
      simp only [ha, if_false, hn, List.mem_cons] at h
      rcases h with h | h
      · exact Or.inl (by rw [h])
      · exact Or.inr (mem_appAfterNamePlan h)

/-- Frame property: a key outside the write shape is untouched by
`processResource`. -/
theorem processResource_unchanged (cfg : Config) (cli : CfClient) (m : AttrMap)
    (k : String) (h : ¬ WrittenShape cfg k) :
    (processResource cfg cli m).1 k = m k := by
  rw [processResource_factor]
  exact applyWrites_get_of_ne _ m k (fun p hp hpk => h (hpk ▸ mem_resSpec hp))

/-- Every key enrichment writes lives in the `cloudfoundry.` namespace. -/
theorem writtenShape_keypref {cfg : Config} {k : String}
    (h : WrittenShape cfg k) : KeyPref cfAttrNS k := by
  have trans : ∀ q s : String, k = (cfAttrNS ++ q) ++ s → KeyPref cfAttrNS k := by
    intro q s hk
    exact ⟨q ++ s, by rw [hk, String.append_assoc]⟩
  rcases h with h | h
  · exact ⟨"app.name", h⟩
  · rcases h with ⟨_, h | h⟩ | ⟨_, h | h | h | h⟩ | ⟨_, h | h⟩ | ⟨_, h | h | h⟩ |
      ⟨_, _, h | h | h⟩
    all_goals first
      | (rcases h with ⟨s, hs⟩; exact trans _ s hs)
      | exact ⟨_, h⟩

/-! Section: C1 — encoding failures and the resolve -/

/-- C1 (counterexample): a resolution that misses the cache and fetches
the application successfully, but whose serialization for cache storage
fails, does NOT return the fetched object without error — `getApp`
returns the encoding error, contradicting the claim that the failure is
swallowed. -/
theorem resolve_encode_failure_counterexample :
    clientEncodeFail.cacheGet "app:A1" = none ∧
    clientEncodeFail.applicationsGet "A1" = Except.ok appSample ∧
    clientEncodeFail.serializeApp appSample = Except.error "gob: unsupported type" ∧
    Client.getApp clientEncodeFail "A1" =
      Except.error "could not encode App app:A1 object to store in cache: gob: unsupported type" ∧
    Client.getApp clientEncodeFail "A1" ≠ Except.ok appSample := by
  refine ⟨rfl, rfl, rfl, by decide, by decide⟩

/-- C1 (amended): on a cache miss with a successful fetch, a failure to
serialize the object for cache storage FAILS the resolve — the function
returns the wrapped encoding error instead of the fetched object — for
all three kinds (`getApp`, `getSpace`, `getOrg`). -/
theorem resolve_encode_failure_fails_resolve (c : Client) (aid sid oid : String)
    (app : CfApp) (sp : CfSpace) (og : CfOrg) (ea es eo : String)
    (hma : c.cacheGet ("app:" ++ aid) = none)
    (hfa : c.applicationsGet aid = Except.ok app)
    (hsa : c.serializeApp app = Except.error ea)
    (hms : c.cacheGet ("space:" ++ sid) = none)
    (hfs : c.spacesGet sid = Except.ok sp)
    (hss : c.serializeSpace sp = Except.error es)
    (hmo : c.cacheGet ("org:" ++ oid) = none)
    (hfo : c.organizationsGet oid = Except.ok og)
    (hso : c.serializeOrg og = Except.error eo) :
    c.getApp aid =
      Except.error ("could not encode App " ++ ("app:" ++ aid) ++
        " object to store in cache: " ++ ea) ∧
    c.getSpace sid =
      Except.error ("could not encode Space " ++ ("space:" ++ sid) ++
        " object to store in cache: " ++ es) ∧
    c.getOrg oid =
      Except.error ("could not encode Org " ++ ("org:" ++ oid) ++
        " object to store in cache: " ++ eo) := by
  refine ⟨?_, ?_, ?_⟩
  · simp [Client.getApp, hma, hfa, hsa]
  · simp [Client.getSpace, hms, hfs, hss]
  · simp [Client.getOrg, hmo, hfo, hso]

/-- Witness for `resolve_encode_failure_fails_resolve` at the concrete
fixture. -/
theorem resolve_encode_failure_fails_resolve_witness :
    Client.getApp clientEncodeFail "A1" =
      Except.error ("could not encode App " ++ ("app:" ++ "A1") ++
        " object to store in cache: " ++ "gob: unsupported type") :=
  (resolve_encode_failure_fails_resolve clientEncodeFail "A1" "S1" "O1"
    appSample spaceSample orgSample
    "gob: unsupported type" "gob: unsupported type" "gob: unsupported type"
    rfl rfl rfl rfl rfl rfl rfl rfl rfl).1

/-! Section: C3 — batch-level functions discard per-resource errors -/

/-- C3: `processMetrics`, `processLogs` and `processTraces` return the
per-resource-enriched batch with a `nil` error for every client and
batch — in particular also when `processResource` returns an error for
some resource (the quantification over `cli` includes clients for which
every resolution fails). -/
theorem batch_processing_discards_resource_errors (cfg : Config) (cli : CfClient)
    (b : ResourceBatch) :
    processMetrics cfg cli b =
      (b.map (fun r => (processResource cfg cli r).1), none) ∧
    processLogs cfg cli b =
      (b.map (fun r => (processResource cfg cli r).1), none) ∧
    processTraces cfg cli b =
      (b.map (fun r => (processResource cfg cli r).1), none) ∧
    (processMetrics cfg cli b).2 = none ∧
    (processLogs cfg cli b).2 = none ∧
    (processTraces cfg cli b).2 = none :=
  ⟨rfl, rfl, rfl, rfl, rfl, rfl⟩

/-! Section: C4 / C10 — absent or non-string identity attributes -/

/-- Shared helper: when both identity reads come back empty, enrichment
is the identity and reports no error. -/
theorem processResource_skip (cfg : Config) (cli : CfClient) (m : AttrMap)
    (h1 : getAppID cfg m = "") (h2 : getSpaceID cfg m = "") :
    processResource cfg cli m = (m, none) := by
  simp [processResource, processAppID, h1, processSpaceID, h2]

/-- C4: a resource carrying neither identity attribute is returned
exactly unchanged with no error; since this holds for EVERY client
(including one whose every call fails), no platform fetch can influence
the result. -/
theorem enrich_no_identity_noop (cfg : Config) (cli : CfClient) (m : AttrMap)
    (ha : m cfg.appIDAttributeKeyAssociation = none)
    (hs : m cfg.spaceIDAttributeKeyAssociation = none) :
    processResource cfg cli m = (m, none) := by
  have h1 : getAppID cfg m = "" := by rw [getAppID, ha]
  have h2 : getSpaceID cfg m = "" := by rw [getSpaceID, hs]
  exact processResource_skip cfg cli m h1 h2

/-- Witness for `enrich_no_identity_noop`: an attribute-free resource
under the default configuration. -/
theorem enrich_no_identity_noop_witness :
    processResource createDefaultConfig cliTrivial (fun _ => none) =
      ((fun _ => none : AttrMap), none) :=
  enrich_no_identity_noop createDefaultConfig cliTrivial _ rfl rfl

/-- C10: an identity attribute that is present but not string-valued is
treated as absent — the identity getters return `""`, and when both
identity attributes are non-strings the resource passes through
unchanged, with no error, for every client. -/
theorem non_string_identity_treated_absent (cfg : Config) (cli : CfClient)
    (m : AttrMap) (va vs : PVal)
    (ha : m cfg.appIDAttributeKeyAssociation = some va) (ha' : va.isStr = false)
    (hs : m cfg.spaceIDAttributeKeyAssociation = some vs) (hs' : vs.isStr = false) :
    getAppID cfg m = "" ∧ getSpaceID cfg m = "" ∧
      processResource cfg cli m = (m, none) := by
  have h1 : getAppID cfg m = "" := by
    rw [getAppID, ha]
    cases va with
    | str s => simp [PVal.isStr] at ha'
    | int n => rfl
  have h2 : getSpaceID cfg m = "" := by
    rw [getSpaceID, hs]
    cases vs with
    | str s => simp [PVal.isStr] at hs'
    | int n => rfl
  exact ⟨h1, h2, processResource_skip cfg cli m h1 h2⟩

/-! Section: C9 — factory defaults -/

/-- C9: the default configuration enables app metadata, disables space
and org metadata, disables state/lifecycle and dates extraction, binds
the app id to the `app_id` attribute, and sets a 10-minute cache TTL;
`cf.New` also defaults its TTL to 10 minutes when no option supplies
one. -/
theorem default_config_values :
    createDefaultConfig.extract.metadata.app = true ∧
    createDefaultConfig.extract.metadata.space = false ∧
    createDefaultConfig.extract.metadata.org = false ∧
    createDefaultConfig.extract.appStateLifecycle = false ∧
    createDefaultConfig.extract.appDates = false ∧
    createDefaultConfig.appIDAttributeKeyAssociation = "app_id" ∧
    createDefaultConfig.cacheTTL = 10 * timeMinute ∧
    (cfNew "https://api.sys.example.com" []).cacheTTL = 10 * timeMinute ∧
    (cfNew "https://api.sys.example.com" [WithUserPassword "u" "p"]).cacheTTL =
      10 * timeMinute :=
  ⟨rfl, rfl, rfl, rfl, rfl, rfl, rfl, rfl, rfl⟩

/-- C8 (counterexample): a config whose auth scheme is fully populated
(`user_pass` with username and password) nevertheless fails validation,
because the endpoint is empty — so validation does not fail *exactly*
when the auth configuration is invalid. -/
theorem validate_not_only_auth_counterexample :
    cfgEmptyEndpoint.cloudFoundry.auth.authKind = authTypeUserPass ∧
    cfgEmptyEndpoint.cloudFoundry.auth.username ≠ "" ∧
    cfgEmptyEndpoint.cloudFoundry.auth.password ≠ "" ∧
    cfgEmptyEndpoint.Validate = some "CloudFoundry.Endpoint must be specified" ∧
    cfgEmptyEndpoint.Validate ≠ none := by
  refine ⟨rfl, by simp [cfgEmptyEndpoint], by simp [cfgEmptyEndpoint], ?_, ?_⟩ <;>
    simp [cfgEmptyEndpoint, Config.Validate]

/-- C8 (amended): validation succeeds exactly when the endpoint is
non-empty AND the auth scheme is fully populated for one of the three
types (so an empty or unknown auth type, or a missing per-type field,
fails); moreover, with a non-empty endpoint, auth type `user_pass`, a
non-empty username and an empty password, the error names the missing
field `password`. -/
theorem validate_characterization (c : Config) :
    (c.Validate = none ↔
      (c.cloudFoundry.endpoint ≠ "" ∧ validAuthScheme c.cloudFoundry.auth)) ∧
    (c.cloudFoundry.endpoint ≠ "" →
      c.cloudFoundry.auth.authKind = authTypeUserPass →
      c.cloudFoundry.auth.username ≠ "" →
      c.cloudFoundry.auth.password = "" →
      c.Validate = some (fieldError authTypeUserPass "password")) := by
  obtain ⟨⟨ep, kind, un, pw, at_, rt, cid, cs⟩, aka, ska, ttl, ext⟩ := c
  constructor
  · by_cases he : ep = ""
    · simp [Config.Validate, validAuthScheme, he]
    · by_cases ht : kind = ""
      · simp [Config.Validate, validAuthScheme, he, ht, authTypeUserPass,
          authTypeClientCredentials, authTypeToken]
      · by_cases hu : kind = authTypeUserPass
        · simp only [Config.Validate, validAuthScheme, hu, authTypeUserPass,
            authTypeClientCredentials, authTypeToken]
          by_cases hun : un = "" <;> by_cases hpw : pw = "" <;>
            simp [he, hun, hpw]
        · by_cases hc : kind = authTypeClientCredentials
          · simp only [Config.Validate, validAuthScheme, hc, authTypeUserPass,
              authTypeClientCredentials, authTypeToken]
            by_cases hci : cid = "" <;> by_cases hcs : cs = "" <;>
              simp [he, hci, hcs]
          · by_cases htk : kind = authTypeToken
            · simp only [Config.Validate, validAuthScheme, htk, authTypeUserPass,
                authTypeClientCredentials, authTypeToken]
              by_cases hat : at_ = "" <;> by_cases hrt : rt = "" <;>
                simp [he, hat, hrt]
            · simp [Config.Validate, validAuthScheme, he, ht, hu, hc, htk]
  · intro he hu hun hpw
    simp only at hu hun hpw
    simp [Config.Validate, he, hu, hun, hpw, authTypeUserPass]

/-- Witness for `validate_characterization`. -/
theorem validate_characterization_witness :
    cfgValid.Validate = none ∧
    cfgMissingPassword.Validate = some (fieldError authTypeUserPass "password") :=
  ⟨(validate_characterization cfgValid).1.mpr
      ⟨by simp [cfgValid], Or.inl ⟨rfl, by simp [cfgValid], by simp [cfgValid]⟩⟩,
    (validate_characterization cfgMissingPassword).2 (by simp [cfgMissingPassword])
      rfl (by simp [cfgMissingPassword]) rfl⟩

/-- C2: at the failing input, with the app-state-lifecycle flag enabled
and the app resolving successfully, the code writes
`cloudfoundry.app.state` and — in original buildpack order — the
lifecycle keys, but under the MISSPELLED segment `lifecyle`
(`cloudfoundry.app.lifecyle.type` / `.stack` / `.buildpacks.<i>`); the
correctly spelled `cloudfoundry.app.lifecycle.*` keys claimed by the
spec are never written.  (The config field itself is spelled
`AppStateLifecycle`, so the attribute key is a slip in the code.) -/
theorem lifecycle_keys_misspelled_eval :
    (processResource cfgLifecycle cliA1 resA1).1 "cloudfoundry.app.state" =
      some (PVal.str "STARTED") ∧
    (processResource cfgLifecycle cliA1 resA1).1 "cloudfoundry.app.lifecyle.type" =
      some (PVal.str "buildpack") ∧
    (processResource cfgLifecycle cliA1 resA1).1 "cloudfoundry.app.lifecyle.stack" =
      some (PVal.str "cflinuxfs4") ∧
    (processResource cfgLifecycle cliA1 resA1).1 "cloudfoundry.app.lifecyle.buildpacks.0" =
      some (PVal.str "bp0") ∧
    (processResource cfgLifecycle cliA1 resA1).1 "cloudfoundry.app.lifecyle.buildpacks.1" =
      some (PVal.str "bp1") ∧
    (processResource cfgLifecycle cliA1 resA1).1 "cloudfoundry.app.lifecycle.type" = none ∧
    (processResource cfgLifecycle cliA1 resA1).1 "cloudfoundry.app.lifecycle.stack" = none ∧
    (processResource cfgLifecycle cliA1 resA1).1 "cloudfoundry.app.lifecycle.buildpacks.0" =
      none ∧
    (processResource cfgLifecycle cliA1 resA1).2 = none := by
  decide

/-! Section: Prefix-exclusion lemmas: which flag must be on for a key family -/

/-- A `cloudfoundry.app.labels.*` key can only be written when the app
metadata flag is on. -/
theorem shape_app_labels_flag {cfg : Config} {k : String}
    (hk : KeyPref (cfAttrNS ++ "app.labels.") k) (h : WrittenShape cfg k) :
    cfg.extract.metadata.app = true := by
  rcases h with hk0 | ⟨hfl, _⟩ | ⟨_, h1 | h1 | h1 | hfam⟩ | ⟨_, h1 | h1⟩ |
    ⟨_, h1 | hfam | hfam⟩ | ⟨_, _, h1 | hfam | hfam⟩
  · exact absurd (hk0 ▸ hk) (not_keypref_of_take _ _ (by decide))
  · exact hfl
  · exact absurd (h1 ▸ hk) (not_keypref_of_take _ _ (by decide))
  · exact absurd (h1 ▸ hk) (not_keypref_of_take _ _ (by decide))
  · exact absurd (h1 ▸ hk) (not_keypref_of_take _ _ (by decide))
  · rcases hfam with ⟨s, hs⟩
    exact absurd (hs ▸ hk) (not_keypref_append_of_take _ _ (by decide) s)
  · exact absurd (h1 ▸ hk) (not_keypref_of_take _ _ (by decide))
  · exact absurd (h1 ▸ hk) (not_keypref_of_take _ _ (by decide))
  · exact absurd (h1 ▸ hk) (not_keypref_of_take _ _ (by decide))
  · rcases hfam with ⟨s, hs⟩
    exact absurd (hs ▸ hk) (not_keypref_append_of_take _ _ (by decide) s)
  · rcases hfam with ⟨s, hs⟩
    exact absurd (hs ▸ hk) (not_keypref_append_of_take _ _ (by decide) s)
  · exact absurd (h1 ▸ hk) (not_keypref_of_take _ _ (by decide))
  · rcases hfam with ⟨s, hs⟩
    exact absurd (hs ▸ hk) (not_keypref_append_of_take _ _ (by decide) s)
  · rcases hfam with ⟨s, hs⟩
    exact absurd (hs ▸ hk) (not_keypref_append_of_take _ _ (by decide) s)

/-- A `cloudfoundry.app.annotations.*` key can only be written when the
app metadata flag is on. -/
theorem shape_app_annotations_flag {cfg : Config} {k : String}
    (hk : KeyPref (cfAttrNS ++ "app.annotations.") k) (h : WrittenShape cfg k) :
    cfg.extract.metadata.app = true := by
  rcases h with hk0 | ⟨hfl, _⟩ | ⟨_, h1 | h1 | h1 | hfam⟩ | ⟨_, h1 | h1⟩ |
    ⟨_, h1 | hfam | hfam⟩ | ⟨_, _, h1 | hfam | hfam⟩
  · exact absurd (hk0 ▸ hk) (not_keypref_of_take _ _ (by decide))
  · exact hfl
  · exact absurd (h1 ▸ hk) (not_keypref_of_take _ _ (by decide))
  · exact absurd (h1 ▸ hk) (not_keypref_of_take _ _ (by decide))
  · exact absurd (h1 ▸ hk) (not_keypref_of_take _ _ (by decide))
  · rcases hfam with ⟨s, hs⟩
    exact absurd (hs ▸ hk) (not_keypref_append_of_take _ _ (by decide) s)
  · exact absurd (h1 ▸ hk) (not_keypref_of_take _ _ (by decide))
  · exact absurd (h1 ▸ hk) (not_keypref_of_take _ _ (by decide))
  · exact absurd (h1 ▸ hk) (not_keypref_of_take _ _ (by decide))
  · rcases hfam with ⟨s, hs⟩
    exact absurd (hs ▸ hk) (not_keypref_append_of_take _ _ (by decide) s)
  · rcases hfam with ⟨s, hs⟩
    exact absurd (hs ▸ hk) (not_keypref_append_of_take _ _ (by decide) s)
  · exact absurd (h1 ▸ hk) (not_keypref_of_take _ _ (by decide))
  · rcases hfam with ⟨s, hs⟩
    exact absurd (hs ▸ hk) (not_keypref_append_of_take _ _ (by decide) s)
  · rcases hfam with ⟨s, hs⟩
    exact absurd (hs ▸ hk) (not_keypref_append_of_take _ _ (by decide) s)

/-- A `cloudfoundry.space.*` key can only be written when the space
metadata flag is on. -/
theorem shape_space_flag {cfg : Config} {k : String}
    (hk : KeyPref (cfAttrNS ++ "space.") k) (h : WrittenShape cfg k) :
    cfg.extract.metadata.space = true := by
  rcases h with hk0 | ⟨_, hfam | hfam⟩ | ⟨_, h1 | h1 | h1 | hfam⟩ | ⟨_, h1 | h1⟩ |
    ⟨hfl, _⟩ | ⟨hfl, _, _⟩
  · exact absurd (hk0 ▸ hk) (not_keypref_of_take _ _ (by decide))
  · rcases hfam with ⟨s, hs⟩
    exact absurd (hs ▸ hk) (not_keypref_append_of_take _ _ (by decide) s)
  · rcases hfam with ⟨s, hs⟩
    exact absurd (hs ▸ hk) (not_keypref_append_of_take _ _ (by decide) s)
  · exact absurd (h1 ▸ hk) (not_keypref_of_take _ _ (by decide))
  · exact absurd (h1 ▸ hk) (not_keypref_of_take _ _ (by decide))
  · exact absurd (h1 ▸ hk) (not_keypref_of_take _ _ (by decide))
  · rcases hfam with ⟨s, hs⟩
    exact absurd (hs ▸ hk) (not_keypref_append_of_take _ _ (by decide) s)
  · exact absurd (h1 ▸ hk) (not_keypref_of_take _ _ (by decide))
  · exact absurd (h1 ▸ hk) (not_keypref_of_take _ _ (by decide))
  · exact hfl
  · exact hfl

/-- A `cloudfoundry.org.*` key can only be written when the space
metadata flag is on (the org sub-step is only reachable through the
space cascade). -/
theorem shape_org_space_flag {cfg : Config} {k : String}
    (hk : KeyPref (cfAttrNS ++ "org.") k) (h : WrittenShape cfg k) :
    cfg.extract.metadata.space = true := by
  rcases h with hk0 | ⟨_, hfam | hfam⟩ | ⟨_, h1 | h1 | h1 | hfam⟩ | ⟨_, h1 | h1⟩ |
    ⟨hfl, _⟩ | ⟨hfl, _, _⟩
  · exact absurd (hk0 ▸ hk) (not_keypref_of_take _ _ (by decide))
  · rcases hfam with ⟨s, hs⟩
    exact absurd (hs ▸ hk) (not_keypref_append_of_take _ _ (by decide) s)
  · rcases hfam with ⟨s, hs⟩
    exact absurd (hs ▸ hk) (not_keypref_append_of_take _ _ (by decide) s)
  · exact absurd (h1 ▸ hk) (not_keypref_of_take _ _ (by decide))
  · exact absurd (h1 ▸ hk) (not_keypref_of_take _ _ (by decide))
  · exact absurd (h1 ▸ hk) (not_keypref_of_take _ _ (by decide))
  · rcases hfam with ⟨s, hs⟩
    exact absurd (hs ▸ hk) (not_keypref_append_of_take _ _ (by decide) s)
  · exact absurd (h1 ▸ hk) (not_keypref_of_take _ _ (by decide))
  · exact absurd (h1 ▸ hk) (not_keypref_of_take _ _ (by decide))
  · exact hfl
  · exact hfl

/-! Section: C6 — org metadata is gated by the space flag -/

/-- C6: with space-metadata extraction disabled, no `cloudfoundry.org.*`
attribute is ever written — on either path, for every client, resource
and remaining policy — because the org sub-step is reachable only
through the space cascade. -/
theorem org_requires_space_flag (cfg : Config) (cli : CfClient) (m : AttrMap)
    (k : String) (hsp : cfg.extract.metadata.space = false)
    (hk : KeyPref (cfAttrNS ++ "org.") k) :
    (processResource cfg cli m).1 k = m k := by
  apply processResource_unchanged
  intro hsh
  rw [shape_org_space_flag hk hsh] at hsp
  exact Bool.noConfusion hsp

/-- Witness for `org_requires_space_flag`: under `cfgLifecycle`
(space flag off) the `cloudfoundry.org.name` attribute of the enriched
resource is exactly the original one. -/
theorem org_requires_space_flag_witness :
    (processResource cfgLifecycle cliA1 resA1).1 "cloudfoundry.org.name" =
      resA1 "cloudfoundry.org.name" :=
  org_requires_space_flag cfgLifecycle cliA1 resA1 "cloudfoundry.org.name" rfl
    ⟨"name", by decide⟩

/-! Section: C5 — policy gating on the app path -/

/-- No key writable after the `app.name` write equals
`cloudfoundry.app.name`. -/
theorem writtenShapeRest_ne_appName {cfg : Config} {k : String}
    (h : WrittenShapeRest cfg k) : k ≠ cfAttrNS ++ "app.name" := by
  rcases h with ⟨_, hfam | hfam⟩ | ⟨_, h1 | h1 | h1 | hfam⟩ | ⟨_, h1 | h1⟩ |
    ⟨_, h1 | hfam | hfam⟩ | ⟨_, _, h1 | hfam | hfam⟩
  all_goals first
    | (rw [h1]; decide)
    | (rcases hfam with ⟨s, hs⟩
       intro heq
       rw [heq] at hs
       exact not_keypref_of_take _ (cfAttrNS ++ "app.name") (by decide) ⟨s, hs⟩)

/-- C5: on the app path with a successfully resolved application,
`cloudfoundry.app.name` is always written with the application's name;
with the app-metadata flag off, every `cloudfoundry.app.labels.*` and
`cloudfoundry.app.annotations.*` attribute is untouched; with the
space-metadata flag off, every `cloudfoundry.space.*` and
`cloudfoundry.org.*` attribute is untouched. -/
theorem policy_gating (cfg : Config) (cli : CfClient) (m : AttrMap) (app : CfApp)
    (hne : getAppID cfg m ≠ "")
    (hres : cli.getApp (getAppID cfg m) = Except.ok app) :
    (processResource cfg cli m).1 (cfAttrNS ++ "app.name") =
      some (PVal.str app.name) ∧
    (cfg.extract.metadata.app = false →
      ∀ k, KeyPref (cfAttrNS ++ "app.labels.") k ∨
          KeyPref (cfAttrNS ++ "app.annotations.") k →
        (processResource cfg cli m).1 k = m k) ∧
    (cfg.extract.metadata.space = false →
      ∀ k, KeyPref (cfAttrNS ++ "space.") k ∨ KeyPref (cfAttrNS ++ "org.") k →
        (processResource cfg cli m).1 k = m k) := by
  refine ⟨?_, ?_, ?_⟩
  · have hn : cli.GetAppName (getAppID cfg m) = Except.ok app.name := by
      rw [CfClient.GetAppName, hres]
    rw [processResource_factor]
    have hrest : lastVal (appAfterNamePlan cfg cli (getAppID cfg m)).1
        (cfAttrNS ++ "app.name") = none :=
      lastVal_eq_none _ _ (fun p hp => writtenShapeRest_ne_appName (mem_appAfterNamePlan hp))
    simp only [resSpec, if_neg hne, hn]
    rw [applyWrites_get]
    simp [lastVal, hrest]
  · intro hfl k hk
    apply processResource_unchanged
    intro hsh
    rcases hk with hk | hk
    · rw [shape_app_labels_flag hk hsh] at hfl
      exact Bool.noConfusion hfl
    · rw [shape_app_annotations_flag hk hsh] at hfl
      exact Bool.noConfusion hfl
  · intro hfl k hk
    apply processResource_unchanged
    intro hsh
    rcases hk with hk | hk
    · rw [shape_space_flag hk hsh] at hfl
      exact Bool.noConfusion hfl
    · rw [shape_org_space_flag hk hsh] at hfl
      exact Bool.noConfusion hfl

/-- Witness for `policy_gating`: `cfgLifecycle` has the app- and
space-metadata flags off; `app.name` is written, the labels key and the
space key are untouched. -/
theorem policy_gating_witness :
    (processResource cfgLifecycle cliA1 resA1).1 (cfAttrNS ++ "app.name") =
      some (PVal.str "svc") ∧
    (processResource cfgLifecycle cliA1 resA1).1 "cloudfoundry.app.labels.team" =
      resA1 "cloudfoundry.app.labels.team" ∧
    (processResource cfgLifecycle cliA1 resA1).1 "cloudfoundry.space.name" =
      resA1 "cloudfoundry.space.name" := by
  have h := policy_gating cfgLifecycle cliA1 resA1 appSample (by decide) (by decide)
  exact ⟨h.1, h.2.1 rfl _ (Or.inl ⟨"team", by decide⟩),
    h.2.2 rfl _ (Or.inl ⟨"name", by decide⟩)⟩

/-- C7 (counterexample): with the app-identity key configured as
`cloudfoundry.app.name`, enriching twice with the same upstream data
yields a different attribute set than enriching once — the first run
overwrites the identity attribute, so the second run resolves a
different application.  The unconditional idempotence claim is false. -/
theorem enrich_idempotent_counterexample :
    (processResource cfgIdemCE cliIdemCE resIdemCE).1 "cloudfoundry.app.name" =
      some (PVal.str "B") ∧
    (processResource cfgIdemCE cliIdemCE
        (processResource cfgIdemCE cliIdemCE resIdemCE).1).1 "cloudfoundry.app.name" =
      some (PVal.str "C") ∧
    (processResource cfgIdemCE cliIdemCE
        (processResource cfgIdemCE cliIdemCE resIdemCE).1).1 "cloudfoundry.app.name" ≠
      (processResource cfgIdemCE cliIdemCE resIdemCE).1 "cloudfoundry.app.name" := by
  refine ⟨by decide, by decide, by decide⟩

/-- C7 (amended): enrichment IS idempotent — byte-for-byte equal result
map and error — whenever the configured identity attribute keys are
outside the `cloudfoundry.` namespace that enrichment writes (in
particular under the default `app_id` association): every write is an
upsert, the second run reads the same identity values, recomputes the
same write plan, and re-writes the same values. -/
theorem enrich_idempotent (cfg : Config) (cli : CfClient) (m : AttrMap)
    (hA : ¬ KeyPref cfAttrNS cfg.appIDAttributeKeyAssociation)
    (hS : ¬ KeyPref cfAttrNS cfg.spaceIDAttributeKeyAssociation) :
    processResource cfg cli (processResource cfg cli m).1 = processResource cfg cli m := by
  have hA' : (processResource cfg cli m).1 cfg.appIDAttributeKeyAssociation =
      m cfg.appIDAttributeKeyAssociation :=
    processResource_unchanged cfg cli m _ (fun hsh => hA (writtenShape_keypref hsh))
  have hS' : (processResource cfg cli m).1 cfg.spaceIDAttributeKeyAssociation =
      m cfg.spaceIDAttributeKeyAssociation :=
    processResource_unchanged cfg cli m _ (fun hsh => hS (writtenShape_keypref hsh))
  have hga : getAppID cfg (processResource cfg cli m).1 = getAppID cfg m := by
    rw [getAppID, getAppID, hA']
  have hgs : getSpaceID cfg (processResource cfg cli m).1 = getSpaceID cfg m := by
    rw [getSpaceID, getSpaceID, hS']
  rw [processResource_factor cfg cli (processResource cfg cli m).1, hga, hgs,
    processResource_factor cfg cli m]
  simp [applyWrites_idem]

/-- Witness for `enrich_idempotent` under the default configuration. -/
theorem enrich_idempotent_witness :
    processResource createDefaultConfig cliA1
        (processResource createDefaultConfig cliA1 resA1).1 =
      processResource createDefaultConfig cliA1 resA1 :=
  enrich_idempotent createDefaultConfig cliA1 resA1
    (not_keypref_of_take _ _ (by decide)) (not_keypref_of_take _ _ (by decide))

/-- Witness for `non_string_identity_treated_absent`. -/
theorem non_string_identity_treated_absent_witness :
    getAppID cfgNonString resNonString = "" ∧
    getSpaceID cfgNonString resNonString = "" ∧
    processResource cfgNonString cliA1 resNonString = (resNonString, none) :=
  non_string_identity_treated_absent cfgNonString cliA1 resNonString
    (PVal.int 5) (PVal.int 7) (by decide) rfl (by decide) rfl
